import Mathlib

/-!
Verification of the liveness-monitoring core of `lab1.py`: a master node
(`MasterNode`) tracking slave heartbeats in a shared dict `self.slaves`
(peer address → last heartbeat time), a background sweep
(`monitor_slaves`) evicting slaves silent for more than 10 seconds, and a
slave runtime (`SlaveNode`) with two periodic senders.  Python strings are
modelled as Lean `String`, the registry dict as an association list with
unique-key discipline, timestamps as `Int`, and each thread's loop as a
function over the list of events it observes in order (the mutex makes the
interleaved registry operations atomic, so sequential processing of one
session's events is faithful).
-/

/-- Agent identity: the transport peer address used as the dict key. -/
abbrev Addr := String

/-- The shared registry `self.slaves`: peer address → last heartbeat time. -/
abbrev Registry := List (Addr × Int)

/-- Dict lookup `self.slaves.get(addr)`. -/
def Registry.lookup : Registry → Addr → Option Int
  | [], _ => none
  | e :: rest, a => if e.1 = a then some e.2 else Registry.lookup rest a

/-- Dict assignment `self.slaves[addr] = t`: replace in place, or append. -/
def Registry.insert : Registry → Addr → Int → Registry
  | [], a, t => [(a, t)]
  | e :: rest, a, t => if e.1 = a then (a, t) :: rest else e :: Registry.insert rest a t

/-- Dict deletion `del self.slaves[addr]`. -/
def Registry.erase : Registry → Addr → Registry
  | [], _ => []
  | e :: rest, a => if e.1 = a then Registry.erase rest a else e :: Registry.erase rest a

/-- Well-formedness of the dict model: keys occur at most once. -/
def Registry.wf (reg : Registry) : Prop := (reg.map Prod.fst).Nodup

/-- Character-list core of Python's `str.startswith`. -/
def charsStartWith : List Char → List Char → Bool
  | [], _ => true
  | _ :: _, [] => false
  | p :: ps, c :: cs => p = c && charsStartWith ps cs

/-- Python `data.startswith(tag)`. -/
def pyStartsWith (data tag : String) : Bool := charsStartWith tag.data data.data

/-- Split a character list at the first space, as Python `split(" ", 1)`
    does: `none` when no space occurs (the split yields a single element). -/
def splitFirstSpace : List Char → Option (List Char × List Char)
  | [] => none
  | c :: cs =>
    if c = ' ' then some ([], cs)
    else (splitFirstSpace cs).map (fun q => (c :: q.1, q.2))

/-- Python `data.split(" ", 1)[1]`: the text after the first space, or
    `none` when indexing element 1 would raise `IndexError`. -/
def splitPayload (data : String) : Option String :=
  (splitFirstSpace data.data).map (fun q => String.mk q.2)

/-- Outcome of handling one received chunk inside `handle_slave`'s loop. -/
inductive StepResult where
  | keepReading (reg : Registry)
  | closing (reg : Registry)
  | crash (reg : Registry)
  deriving DecidableEq

/-- One iteration of `MasterNode.handle_slave`'s receive loop on data
    `data` read at time `now`:
    empty data breaks out of the loop; a `HEARTBEAT`-prefixed message sets
    `self.slaves[addr] = now`; a `RESOURCE`-prefixed message extracts
    `data.split(" ", 1)[1]` and only prints it — the uncaught `IndexError`
    when no space is present crashes the handler; anything else falls
    through both branches and is ignored. -/
def handleMessage (addr : Addr) (now : Int) (reg : Registry) (data : String) : StepResult :=
  if data = "" then StepResult.closing reg
  else if pyStartsWith data "HEARTBEAT" then StepResult.keepReading (Registry.insert reg addr now)
  else if pyStartsWith data "RESOURCE" then
    match splitPayload data with
    | some _ => StepResult.keepReading reg
    | none => StepResult.crash reg
  else StepResult.keepReading reg

/-- Process a list of received messages ((data, receive time) pairs) while
    the loop keeps reading; `none` when some step breaks out or crashes. -/
def processTrace (addr : Addr) (reg : Registry) : List (String × Int) → Option Registry
  | [] => some reg
  | (s, now) :: rest =>
    match handleMessage addr now reg s with
    | StepResult.keepReading reg2 => processTrace addr reg2 rest
    | _ => none

/-- What one `recv` call in `handle_slave` can observe: data (possibly
    empty, meaning EOF) read at a time, or a caught transport exception
    (`ConnectionResetError` / `ssl.SSLError`). -/
inductive RecvEvent where
  | data (s : String) (now : Int)
  | transportError
  deriving DecidableEq

/-- Final state of a `handle_slave` invocation: the registry it leaves
    behind, whether the socket was closed (the `with client_socket:` block
    closes it on every exit, exceptional or not), and whether the guarded
    deletion after the `with` block actually ran. -/
structure SessionEnd where
  registry : Registry
  channelReleased : Bool
  cleanupRan : Bool
  deriving DecidableEq

/-- The block after `handle_slave`'s loop:
    `if addr in self.slaves: del self.slaves[addr]`. -/
def sessionCleanup (reg : Registry) (addr : Addr) : Registry :=
  if (Registry.lookup reg addr).isSome then Registry.erase reg addr else reg

/-- Run `MasterNode.handle_slave` over the sequence of receive events it
    observes.  `none` means the trace ended with the loop still reading.
    A transport error or empty read breaks the loop: the socket is closed
    and the guarded deletion runs.  An uncaught `IndexError` propagates:
    the `with` block still closes the socket but the deletion is skipped. -/
def runSession (addr : Addr) : List RecvEvent → Registry → Option SessionEnd
  | [], _ => none
  | RecvEvent.transportError :: _, reg =>
    some ⟨sessionCleanup reg addr, true, true⟩
  | RecvEvent.data s now :: rest, reg =>
    match handleMessage addr now reg s with
    | StepResult.keepReading reg2 => runSession addr rest reg2
    | StepResult.closing reg2 => some ⟨sessionCleanup reg2 addr, true, true⟩
    | StepResult.crash reg2 => some ⟨reg2, true, false⟩

/-- View a plain message trace as a list of receive events. -/
def toEvent (p : String × Int) : RecvEvent := RecvEvent.data p.1 p.2

/-- The eviction deadline of `monitor_slaves`: `now - last_heartbeat > 10`. -/
def livenessDeadline : Int := 10

/-- The sweep period of `monitor_slaves`: `time.sleep(5)`. -/
def sweepPeriod : Int := 5

/-- The body of one `monitor_slaves` cycle: iterate the snapshot
    `list(self.slaves.items())`, and for every entry with
    `now - last_heartbeat > 10` print an unresponsive event and delete the
    entry from the live dict.  Returns the dict after the cycle and the
    addresses reported unresponsive, in iteration order. -/
def sweepLoop (now : Int) : Registry → Registry → Registry × List Addr
  | [], reg => (reg, [])
  | (a, t) :: rest, reg =>
    if now - t > livenessDeadline then
      let r := sweepLoop now rest (Registry.erase reg a)
      (r.1, a :: r.2)
    else sweepLoop now rest reg

/-- One cycle of `MasterNode.monitor_slaves` at time `now`. -/
def sweep (now : Int) (reg : Registry) : Registry × List Addr :=
  sweepLoop now reg reg

/-- The SSL verification modes relevant to `create_ssl_context`. -/
inductive VerifyMode where
  | certNone
  | certRequired
  deriving DecidableEq

/-- The context-purpose argument of `ssl.create_default_context`. -/
inductive Purpose where
  | clientAuth
  | serverAuth
  deriving DecidableEq

/-- The observable configuration of an `ssl.SSLContext`. -/
structure SSLContext where
  purpose : Purpose
  checkHostname : Bool
  verifyMode : VerifyMode
  certLoaded : Bool
  deriving DecidableEq

/-- `ssl.create_default_context(purpose)`: for `SERVER_AUTH` (a client
    context) hostname checking is on and certificates are required; for
    `CLIENT_AUTH` (a server context) client certificates are not verified. -/
def createDefaultContext : Purpose → SSLContext
  | Purpose.clientAuth =>
    { purpose := Purpose.clientAuth, checkHostname := false
      verifyMode := VerifyMode.certNone, certLoaded := false }
  | Purpose.serverAuth =>
    { purpose := Purpose.serverAuth, checkHostname := true
      verifyMode := VerifyMode.certRequired, certLoaded := false }

/-- `create_ssl_context(server)`: the server branch builds a
    `CLIENT_AUTH` context and loads the certificate chain; the client
    (connect-mode) branch builds a `SERVER_AUTH` context and then
    unconditionally sets `check_hostname = False` and
    `verify_mode = ssl.CERT_NONE`.  The role flag is the function's only
    parameter. -/
def create_ssl_context (server : Bool) : SSLContext :=
  if server then
    let c := createDefaultContext Purpose.clientAuth
    { c with certLoaded := true }
  else
    let c := createDefaultContext Purpose.serverAuth
    { c with checkHostname := false, verifyMode := VerifyMode.certNone }

/-- The liveness message of `SlaveNode.send_heartbeat`: `b"HEARTBEAT"`. -/
def heartbeatMessage : String := "HEARTBEAT"

/-- The payload built by `SlaveNode.send_resource_status`:
    `f"CPU: {cpu}%, Memory: {memory}%"`, with the two sampled percentages
    abstracted as their rendered decimal strings. -/
def resourceData (cpu mem : String) : String :=
  "CPU: " ++ cpu ++ "%, Memory: " ++ mem ++ "%"

/-- The wire message of `SlaveNode.send_resource_status`:
    `f"RESOURCE {resource_data}"`. -/
def resourceMessage (cpu mem : String) : String :=
  "RESOURCE " ++ resourceData cpu mem

/-- What one `sendall` attempt in a slave sender can do: succeed, or raise
    a transport exception — `ssl.SSLError` and `BrokenPipeError` are the
    two types the sender's `except` clause catches, while
    `ConnectionResetError` (a peer reset, a sibling of `BrokenPipeError`,
    not a subclass) is also possible on the socket and is not caught. -/
inductive SendOutcome where
  | ok
  | sslError
  | brokenPipe
  | connectionReset
  deriving DecidableEq

/-- Which failures the sender's `except (ssl.SSLError, BrokenPipeError)`
    clause catches. -/
def caughtBySender : SendOutcome → Bool
  | SendOutcome.sslError => true
  | SendOutcome.brokenPipe => true
  | _ => false

/-- How a slave sender loop ends: outcomes exhausted with the loop still
    alive, a clean `break` after a caught failure, or an uncaught
    exception propagating out of the sender function (killing that daemon
    thread).  Each case carries the number of completed sends. -/
inductive SenderResult where
  | looping (sends : Nat)
  | stopped (sends : Nat)
  | raised (sends : Nat)
  deriving DecidableEq

/-- One slave sender loop (`send_heartbeat` / `send_resource_status`) run
    against the outcomes of its successive send attempts.  A caught
    failure prints and executes `break` — no retry, no reconnect; a
    `ConnectionResetError` is not caught and raises out of the loop. -/
def runSenderLoop : List SendOutcome → SenderResult
  | [] => SenderResult.looping 0
  | SendOutcome.ok :: rest =>
    match runSenderLoop rest with
    | SenderResult.looping n => SenderResult.looping (n + 1)
    | SenderResult.stopped n => SenderResult.stopped (n + 1)
    | SenderResult.raised n => SenderResult.raised (n + 1)
  | SendOutcome.sslError :: _ => SenderResult.stopped 0
  | SendOutcome.brokenPipe :: _ => SenderResult.stopped 0
  | SendOutcome.connectionReset :: _ => SenderResult.raised 0

/-- The observable state of `SlaveNode.start`'s two daemon sender
    threads: each thread's outcome is determined by its own send attempts
    alone (they share no state beyond the socket, and a thread that dies
    of an uncaught exception does not affect the other daemon thread or
    the process). -/
structure AgentRuntime where
  hb : SenderResult
  res : SenderResult
  deriving DecidableEq

/-- Run both independent senders. -/
def runAgent (hbOut resOut : List SendOutcome) : AgentRuntime :=
  { hb := runSenderLoop hbOut, res := runSenderLoop resOut }

/-- Specification-side measure for `handle_slave` traces: the receive time
    of the last `HEARTBEAT`-tagged message of the trace, if any. -/
def lastHeartbeatTime : List (String × Int) → Option Int
  | [] => none
  | (s, now) :: rest =>
    match lastHeartbeatTime rest with
    | some t => some t
    | none => if pyStartsWith s "HEARTBEAT" then some now else none

/-- Erase every key of a list in turn (used to characterise `sweepLoop`). -/
def eraseAll (reg : Registry) (as : List Addr) : Registry :=
  as.foldl Registry.erase reg

/-- The entries of a registry past the deadline at time `now`. -/
def staleEntries (now : Int) (items : Registry) : Registry :=
  items.filter (fun e => decide (now - e.2 > livenessDeadline))

lemma Registry.lookup_insert_self (reg : Registry) (a : Addr) (t : Int) :
    Registry.lookup (Registry.insert reg a t) a = some t := by
  induction reg with
  | nil => simp [Registry.insert, Registry.lookup]
  | cons e rest ih =>
    by_cases h : e.1 = a
    · simp [Registry.insert, h, Registry.lookup]
    · simp [Registry.insert, h, Registry.lookup, ih]

lemma Registry.lookup_erase (reg : Registry) (b a : Addr) :
    Registry.lookup (Registry.erase reg b) a =
      if a = b then none else Registry.lookup reg a := by
  induction reg with
  | nil => simp [Registry.erase, Registry.lookup]
  | cons e rest ih =>
    by_cases hb : e.1 = b
    · rw [Registry.erase, if_pos hb, ih]
      by_cases hab : a = b
      · simp [hab]
      · have hea : e.1 ≠ a := fun h => hab (by rw [← h]; exact hb)
        simp [hab, Registry.lookup, hea]
    · rw [Registry.erase, if_neg hb]
      by_cases ha : e.1 = a
      · have hab : ¬ a = b := fun h => hb (by rw [ha, h])
        simp [Registry.lookup, ha, hab]
      · rw [Registry.lookup, if_neg ha, ih]
        by_cases hab : a = b
        · simp [hab]
        · simp [hab, Registry.lookup, ha]

lemma lookup_eraseAll (as : List Addr) (reg : Registry) (a : Addr) :
    Registry.lookup (eraseAll reg as) a =
      if a ∈ as then none else Registry.lookup reg a := by
  induction as generalizing reg with
  | nil => simp [eraseAll]
  | cons b rest ih =>
    have step : eraseAll reg (b :: rest) = eraseAll (Registry.erase reg b) rest := rfl
    rw [step, ih]
    by_cases hab : a = b
    · simp [hab, Registry.lookup_erase]
    · by_cases hr : a ∈ rest <;> simp [hr, hab, Registry.lookup_erase]

lemma Registry.mem_erase (reg : Registry) (b : Addr) (x : Addr × Int) :
    x ∈ Registry.erase reg b ↔ x ∈ reg ∧ x.1 ≠ b := by
  induction reg with
  | nil => simp [Registry.erase]
  | cons e rest ih =>
    by_cases hb : e.1 = b
    · constructor
      · intro hx
        rw [Registry.erase, if_pos hb] at hx
        have := ih.mp hx
        exact ⟨List.mem_cons_of_mem _ this.1, this.2⟩
      · rintro ⟨hx, hxb⟩
        rcases List.mem_cons.mp hx with h | h
        · exact absurd (h ▸ hb) hxb
        · rw [Registry.erase, if_pos hb]; exact ih.mpr ⟨h, hxb⟩
    · rw [Registry.erase, if_neg hb]
      constructor
      · intro hx
        rcases List.mem_cons.mp hx with h | h
        · exact ⟨h ▸ List.mem_cons_self e rest, by rw [h]; exact hb⟩
        · have := ih.mp h
          exact ⟨List.mem_cons_of_mem _ this.1, this.2⟩
      · rintro ⟨hx, hxb⟩
        rcases List.mem_cons.mp hx with h | h
        · exact h ▸ List.mem_cons_self e _
        · exact List.mem_cons_of_mem _ (ih.mpr ⟨h, hxb⟩)

lemma mem_eraseAll (as : List Addr) (reg : Registry) (x : Addr × Int) :
    x ∈ eraseAll reg as ↔ x ∈ reg ∧ x.1 ∉ as := by
  induction as generalizing reg with
  | nil => simp [eraseAll]
  | cons b rest ih =>
    have step : eraseAll reg (b :: rest) = eraseAll (Registry.erase reg b) rest := rfl
    rw [step, ih]
    rw [Registry.mem_erase]
    constructor
    · rintro ⟨⟨hx, hb⟩, hr⟩
      exact ⟨hx, by simp [hb, hr]⟩
    · rintro ⟨hx, hm⟩
      simp only [List.mem_cons, not_or] at hm
      exact ⟨⟨hx, hm.1⟩, hm.2⟩

lemma Registry.lookup_some_mem {reg : Registry} {a : Addr} {t : Int}
    (h : Registry.lookup reg a = some t) : (a, t) ∈ reg := by
  induction reg with
  | nil => simp [Registry.lookup] at h
  | cons e rest ih =>
    by_cases ha : e.1 = a
    · rw [Registry.lookup, if_pos ha] at h
      have he : e = (a, t) := by cases e; simp_all
      rw [← he]
      exact List.mem_cons_self e rest
    · rw [Registry.lookup, if_neg ha] at h
      exact List.mem_cons_of_mem _ (ih h)

lemma Registry.lookup_none_iff (reg : Registry) (a : Addr) :
    Registry.lookup reg a = none ↔ ∀ x ∈ reg, x.1 ≠ a := by
  induction reg with
  | nil => simp [Registry.lookup]
  | cons e rest ih =>
    by_cases ha : e.1 = a
    · rw [Registry.lookup, if_pos ha]
      constructor
      · intro h; cases h
      · intro h; exact absurd ha (h e (List.mem_cons_self e rest))
    · rw [Registry.lookup, if_neg ha, ih]
      constructor
      · intro h x hx
        rcases List.mem_cons.mp hx with hx | hx
        · rw [hx]; exact ha
        · exact h x hx
      · intro h x hx
        exact h x (List.mem_cons_of_mem _ hx)

lemma Registry.lookup_of_mem_wf {reg : Registry} (hwf : Registry.wf reg)
    {a : Addr} {t : Int} (h : (a, t) ∈ reg) : Registry.lookup reg a = some t := by
  induction reg with
  | nil => simp at h
  | cons e rest ih =>
    rcases List.mem_cons.mp h with he | he
    · rw [← he, Registry.lookup, if_pos rfl]
    · have ha : e.1 ≠ a := by
        intro hea
        have : a ∈ rest.map Prod.fst := List.mem_map.mpr ⟨(a, t), he, rfl⟩
        rw [Registry.wf, List.map_cons, List.nodup_cons] at hwf
        exact hwf.1 (hea ▸ this)
      rw [Registry.lookup, if_neg ha]
      exact ih (by rw [Registry.wf, List.map_cons, List.nodup_cons] at hwf; exact hwf.2) he

lemma sweepLoop_eq (now : Int) (items : Registry) :
    ∀ reg, sweepLoop now items reg =
      (eraseAll reg ((staleEntries now items).map Prod.fst),
       (staleEntries now items).map Prod.fst) := by
  induction items with
  | nil => intro reg; simp [sweepLoop, staleEntries, eraseAll]
  | cons e rest ih =>
    intro reg
    by_cases h : now - e.2 > livenessDeadline
    · have hs : staleEntries now (e :: rest) = e :: staleEntries now rest := by
        simp [staleEntries, List.filter_cons, h]
      cases e with
      | mk a t =>
        rw [sweepLoop, if_pos h, ih (Registry.erase reg a), hs]
        simp only [List.map_cons]
        rfl
    · have hs : staleEntries now (e :: rest) = staleEntries now rest := by
        simp [staleEntries, List.filter_cons, h]
      cases e with
      | mk a t =>
        rw [sweepLoop, if_neg h, ih reg, hs]

/-- Addresses reported and removed by one sweep cycle. -/
lemma sweep_events (now : Int) (reg : Registry) :
    (sweep now reg).2 = (staleEntries now reg).map Prod.fst := by
  rw [sweep, sweepLoop_eq]

lemma sweep_lookup (now : Int) (reg : Registry) (a : Addr) :
    Registry.lookup (sweep now reg).1 a =
      if a ∈ (staleEntries now reg).map Prod.fst then none
      else Registry.lookup reg a := by
  rw [sweep, sweepLoop_eq]
  exact lookup_eraseAll _ _ _

lemma mem_staleKeys_iff_of_wf {now : Int} {reg : Registry} (hwf : Registry.wf reg)
    {a : Addr} {t : Int} (hl : Registry.lookup reg a = some t) :
    a ∈ (staleEntries now reg).map Prod.fst ↔ now - t > livenessDeadline := by
  constructor
  · intro h
    rcases List.mem_map.mp h with ⟨x, hx, hxa⟩
    rw [staleEntries, List.mem_filter] at hx
    have hmem : (a, x.2) ∈ reg := by
      have := hx.1
      cases x
      simp_all
    have hlx := Registry.lookup_of_mem_wf hwf hmem
    rw [hl] at hlx
    have ht : t = x.2 := by injection hlx
    have hstale := of_decide_eq_true hx.2
    rw [← ht] at hstale
    exact hstale
  · intro h
    have hmem : (a, t) ∈ reg := Registry.lookup_some_mem hl
    exact List.mem_map.mpr ⟨(a, t), by rw [staleEntries, List.mem_filter]; exact ⟨hmem, decide_eq_true h⟩, rfl⟩

lemma staleKeys_nodup {now : Int} {reg : Registry} (hwf : Registry.wf reg) :
    ((staleEntries now reg).map Prod.fst).Nodup := by
  have hsub : List.Sublist (staleEntries now reg) reg := List.filter_sublist reg
  have hsub2 : List.Sublist ((staleEntries now reg).map Prod.fst) (reg.map Prod.fst) :=
    List.Sublist.map Prod.fst hsub
  exact List.Nodup.sublist hsub2 hwf

lemma pyStartsWith_resource_not_hb (p : String) :
    pyStartsWith ("RESOURCE " ++ p) "HEARTBEAT" = false := rfl

lemma pyStartsWith_resource_self (p : String) :
    pyStartsWith ("RESOURCE " ++ p) "RESOURCE" = true := rfl

lemma splitPayload_resource (p : String) :
    splitPayload ("RESOURCE " ++ p) = some p := rfl

lemma resource_append_ne_empty (p : String) : "RESOURCE " ++ p ≠ "" := by
  intro h
  have hd := congrArg String.data h
  rw [String.data_append] at hd
  simp at hd

lemma handleMessage_resource_payload (addr : Addr) (now : Int) (reg : Registry) (p : String) :
    handleMessage addr now reg ("RESOURCE " ++ p) = StepResult.keepReading reg := rfl

lemma pyStartsWith_empty_false (tag : String) (c : Char) (cs : List Char)
    (htag : tag.data = c :: cs) : pyStartsWith "" tag = false := by
  rw [pyStartsWith, htag]
  rfl

lemma handleMessage_heartbeat (addr : Addr) (now : Int) (reg : Registry) {s : String}
    (h : pyStartsWith s "HEARTBEAT" = true) :
    handleMessage addr now reg s = StepResult.keepReading (Registry.insert reg addr now) := by
  have hne : s ≠ "" := by
    intro he
    rw [he, pyStartsWith_empty_false "HEARTBEAT" 'H' "EARTBEAT".data rfl] at h
    cases h
  rw [handleMessage, if_neg hne, if_pos h]

lemma handleMessage_other (addr : Addr) (now : Int) (reg : Registry) {s : String}
    (hne : s ≠ "") (hh : pyStartsWith s "HEARTBEAT" = false)
    (hr : pyStartsWith s "RESOURCE" = false) :
    handleMessage addr now reg s = StepResult.keepReading reg := by
  rw [handleMessage, if_neg hne]
  simp [hh, hr]

lemma handleMessage_keepReading_cases (addr : Addr) (now : Int) (reg reg2 : Registry)
    (s : String) (h : handleMessage addr now reg s = StepResult.keepReading reg2) :
    (pyStartsWith s "HEARTBEAT" = true ∧ reg2 = Registry.insert reg addr now) ∨
    (pyStartsWith s "HEARTBEAT" = false ∧ reg2 = reg) := by
  by_cases hne : s = ""
  · rw [handleMessage, if_pos hne] at h
    cases h
  · by_cases hh : pyStartsWith s "HEARTBEAT" = true
    · rw [handleMessage_heartbeat addr now reg hh] at h
      injection h with h2
      exact Or.inl ⟨hh, h2.symm⟩
    · rw [Bool.not_eq_true] at hh
      right
      refine ⟨hh, ?_⟩
      by_cases hr : pyStartsWith s "RESOURCE" = true
      · rw [handleMessage, if_neg hne] at h
        simp only [hh, Bool.false_eq_true, if_false, hr, if_true] at h
        cases hsp : splitPayload s with
        | some q => rw [hsp] at h; injection h with h2; exact h2.symm
        | none => rw [hsp] at h; cases h
      · rw [Bool.not_eq_true] at hr
        rw [handleMessage_other addr now reg hne hh hr] at h
        injection h with h2
        exact h2.symm

lemma runSession_append_of_processTrace (addr : Addr) :
    ∀ (msgs : List (String × Int)) (reg r : Registry),
      processTrace addr reg msgs = some r →
      ∀ tail, runSession addr (msgs.map toEvent ++ tail) reg = runSession addr tail r := by
  intro msgs
  induction msgs with
  | nil =>
    intro reg r h tail
    rw [processTrace] at h
    injection h with h2
    rw [h2]
    rfl
  | cons m rest ih =>
    intro reg r h tail
    cases m with
    | mk s now =>
      rw [processTrace] at h
      cases hm : handleMessage addr now reg s with
      | keepReading reg2 =>
        rw [hm] at h
        have step : (((s, now) :: rest).map toEvent ++ tail) =
            RecvEvent.data s now :: (rest.map toEvent ++ tail) := rfl
        rw [step, runSession, hm]
        exact ih reg2 r h tail
      | closing reg2 => rw [hm] at h; cases h
      | crash reg2 => rw [hm] at h; cases h

lemma sessionCleanup_lookup_self (reg : Registry) (addr : Addr) :
    Registry.lookup (sessionCleanup reg addr) addr = none := by
  rw [sessionCleanup]
  cases hl : Registry.lookup reg addr with
  | none => simp [hl]
  | some t => simp [hl, Registry.lookup_erase]

lemma runSenderLoop_fail {f : SendOutcome} (hf : f ≠ SendOutcome.ok)
    (post : List SendOutcome) :
    runSenderLoop (f :: post) =
      if caughtBySender f then SenderResult.stopped 0 else SenderResult.raised 0 := by
  cases f with
  | ok => exact absurd rfl hf
  | sslError => rfl
  | brokenPipe => rfl
  | connectionReset => rfl

lemma runSenderLoop_ok_to_fail {f : SendOutcome} (hf : f ≠ SendOutcome.ok) :
    ∀ (pre post : List SendOutcome), (∀ o ∈ pre, o = SendOutcome.ok) →
      runSenderLoop (pre ++ f :: post) =
        if caughtBySender f then SenderResult.stopped pre.length
        else SenderResult.raised pre.length := by
  intro pre
  induction pre with
  | nil =>
    intro post _
    rw [List.nil_append, runSenderLoop_fail hf]
    rfl
  | cons o rest ih =>
    intro post hpre
    have ho : o = SendOutcome.ok := hpre o (List.mem_cons_self o rest)
    have hrest : ∀ x ∈ rest, x = SendOutcome.ok :=
      fun x hx => hpre x (List.mem_cons_of_mem _ hx)
    rw [ho, List.cons_append, runSenderLoop, ih post hrest]
    by_cases hc : caughtBySender f = true
    · simp [hc]
    · rw [Bool.not_eq_true] at hc
      simp [hc]

lemma sweepLoop_no_stale (now : Int) :
    ∀ (items reg : Registry), (∀ e ∈ items, ¬ (now - e.2 > livenessDeadline)) →
      sweepLoop now items reg = (reg, []) := by
  intro items
  induction items with
  | nil => intro reg _; rfl
  | cons e rest ih =>
    intro reg h
    cases e with
    | mk a t =>
      rw [sweepLoop, if_neg (h (a, t) (List.mem_cons_self (a, t) rest))]
      exact ih reg (fun x hx => h x (List.mem_cons_of_mem _ hx))

/-- C1 counterexample: `handle_slave` leaves the registry completely empty
    after a `RESOURCE` message from an identity it has never seen — no
    record is created and no resource snapshot is stored anywhere, so the
    claim that a registry record with `lastResourceSnapshot` set is created
    on a `RESOURCE` message from an unknown identity is false. -/
theorem handle_slave_resource_creates_no_record :
    handleMessage "agent" 0 [] "RESOURCE CPU: 12.5%, Memory: 40.0%" = StepResult.keepReading [] ∧
    Registry.lookup [] "agent" = none := ⟨by decide, rfl⟩

/-- C1 (amended): on a well-formed `RESOURCE` message (tag, one space,
    payload) `handle_slave` extracts exactly the text after the first
    space for logging and leaves the registry unchanged: the registry
    holds only last-heartbeat times, and resource-only agents are never
    registered. -/
theorem handle_slave_resource_registry_unchanged (addr : Addr) (now : Int)
    (reg : Registry) (p : String) :
    handleMessage addr now reg ("RESOURCE " ++ p) = StepResult.keepReading reg ∧
    splitPayload ("RESOURCE " ++ p) = some p :=
  ⟨handleMessage_resource_payload addr now reg p, splitPayload_resource p⟩

/-- C2 counterexample: calling the channel factory in connect mode — which
    takes no insecure flag, its only parameter being the role — yields a
    context with certificate verification and hostname checking disabled,
    so disabled verification is the default (and only) connect-mode
    behavior, falsifying the claim. -/
theorem create_ssl_context_connect_insecure_by_default :
    (create_ssl_context false).verifyMode = VerifyMode.certNone ∧
    (create_ssl_context false).checkHostname = false := ⟨rfl, rfl⟩

/-- C2 (amended): the connect-mode factory unconditionally disables
    hostname checking and certificate verification; no insecure flag
    exists (the single parameter selects the role), and only the accept
    role loads a certificate. -/
theorem create_ssl_context_connect_always_insecure :
    (create_ssl_context false).checkHostname = false ∧
    (create_ssl_context false).verifyMode = VerifyMode.certNone ∧
    (create_ssl_context false).certLoaded = false ∧
    (create_ssl_context true).certLoaded = true := ⟨rfl, rfl, rfl, rfl⟩

/-- C3: one `monitor_slaves` cycle at time `now` removes a record and
    emits exactly one unresponsive event for it if and only if
    `now - lastSeenAt > 10`; records within the deadline are left with
    their timestamp unchanged and produce no event, and absent identities
    stay absent with no event. -/
theorem monitor_slaves_evicts_exactly_stale (now : Int) (reg : Registry)
    (hwf : Registry.wf reg) (a : Addr) :
    (∀ t, Registry.lookup reg a = some t →
      (now - t > livenessDeadline →
        Registry.lookup (sweep now reg).1 a = none ∧ (sweep now reg).2.count a = 1) ∧
      (now - t ≤ livenessDeadline →
        Registry.lookup (sweep now reg).1 a = some t ∧ (sweep now reg).2.count a = 0)) ∧
    (Registry.lookup reg a = none →
      Registry.lookup (sweep now reg).1 a = none ∧ (sweep now reg).2.count a = 0) := by
  constructor
  · intro t hl
    constructor
    · intro hstale
      have hmem : a ∈ (staleEntries now reg).map Prod.fst :=
        (mem_staleKeys_iff_of_wf hwf hl).mpr hstale
      refine ⟨by rw [sweep_lookup, if_pos hmem], ?_⟩
      rw [sweep_events]
      exact List.count_eq_one_of_mem (staleKeys_nodup hwf) hmem
    · intro hfresh
      have hnmem : a ∉ (staleEntries now reg).map Prod.fst := by
        intro hm
        exact absurd ((mem_staleKeys_iff_of_wf hwf hl).mp hm) (not_lt.mpr hfresh)
      refine ⟨by rw [sweep_lookup, if_neg hnmem, hl], ?_⟩
      rw [sweep_events]
      exact List.count_eq_zero_of_not_mem hnmem
  · intro hl
    have hnmem : a ∉ (staleEntries now reg).map Prod.fst := by
      intro hm
      rcases List.mem_map.mp hm with ⟨x, hx, hxa⟩
      rw [staleEntries, List.mem_filter] at hx
      exact (Registry.lookup_none_iff reg a).mp hl x hx.1 hxa
    refine ⟨by rw [sweep_lookup, if_neg hnmem, hl], ?_⟩
    rw [sweep_events]
    exact List.count_eq_zero_of_not_mem hnmem

/-- C3 witness: at `now = 20` the sweep evicts the agent last seen at 5
    (silence 15 > 10) with exactly one event. -/
theorem monitor_slaves_evicts_exactly_stale_witness :
    Registry.lookup (sweep 20 [("a", 5), ("b", 15)]).1 "a" = none ∧
    (sweep 20 [("a", 5), ("b", 15)]).2.count "a" = 1 :=
  ((monitor_slaves_evicts_exactly_stale 20 [("a", 5), ("b", 15)]
    (by unfold Registry.wf; decide) "a").1 5 (by decide)).1 (by decide)

/-- C4: over any message sequence one session processes while its loop
    keeps reading, the final registry time for the session's agent is the
    processing timestamp of the last `HEARTBEAT` message, and is the prior
    value (in particular: created fresh by a heartbeat when absent) only
    when no heartbeat occurs. -/
theorem handle_slave_last_heartbeat_wins (addr : Addr) (msgs : List (String × Int))
    (reg r : Registry) (h : processTrace addr reg msgs = some r) :
    Registry.lookup r addr =
      match lastHeartbeatTime msgs with
      | some t => some t
      | none => Registry.lookup reg addr := by
  induction msgs generalizing reg with
  | nil =>
    rw [processTrace] at h
    injection h with h2
    rw [← h2]
    rfl
  | cons m rest ih =>
    cases m with
    | mk s now =>
      rw [processTrace] at h
      cases hm : handleMessage addr now reg s with
      | keepReading reg2 =>
        rw [hm] at h
        have hrec := ih reg2 h
        rcases handleMessage_keepReading_cases addr now reg reg2 s hm with
          ⟨hhb, hr2⟩ | ⟨hhb, hr2⟩
        · rw [lastHeartbeatTime]
          cases hl : lastHeartbeatTime rest with
          | some t =>
            rw [hl] at hrec
            exact hrec
          | none =>
            rw [hl] at hrec
            rw [hhb]
            show Registry.lookup r addr = some now
            rw [hrec, hr2]
            exact Registry.lookup_insert_self reg addr now
        · rw [lastHeartbeatTime]
          cases hl : lastHeartbeatTime rest with
          | some t =>
            rw [hl] at hrec
            exact hrec
          | none =>
            rw [hl] at hrec
            rw [hhb]
            show Registry.lookup r addr = Registry.lookup reg addr
            rw [hrec, hr2]
      | closing reg2 => rw [hm] at h; cases h
      | crash reg2 => rw [hm] at h; cases h

/-- C4 witness: heartbeat at 1, resource report at 2, heartbeat at 3 —
    the final registry time is 3. -/
theorem handle_slave_last_heartbeat_wins_witness :
    Registry.lookup [("a", (3 : Int))] "a" =
      match lastHeartbeatTime [("HEARTBEAT", 1), ("RESOURCE CPU: 1%", 2), ("HEARTBEAT", 3)] with
      | some t => some t
      | none => Registry.lookup [] "a" :=
  handle_slave_last_heartbeat_wins "a"
    [("HEARTBEAT", 1), ("RESOURCE CPU: 1%", 2), ("HEARTBEAT", 3)] [] [("a", 3)] (by decide)

/-- C5: when a session's receive loop observes an empty read (EOF) or a
    caught transport error after any successfully processed prefix, the
    handler ends with the guarded deletion executed — the agent's record
    is gone from the registry it leaves behind — the socket closed, and
    any later events ignored (no further registry writes). -/
theorem handle_slave_disconnect_removes_record (addr : Addr)
    (msgs : List (String × Int)) (reg r : Registry)
    (hpre : processTrace addr reg msgs = some r)
    (ev : RecvEvent) (hev : ev = RecvEvent.transportError ∨ ∃ now, ev = RecvEvent.data "" now)
    (tail : List RecvEvent) :
    runSession addr (msgs.map toEvent ++ ev :: tail) reg =
      some ⟨sessionCleanup r addr, true, true⟩ ∧
    Registry.lookup (sessionCleanup r addr) addr = none := by
  constructor
  · rw [runSession_append_of_processTrace addr msgs reg r hpre]
    rcases hev with hev | ⟨now, hev⟩
    · rw [hev]; rfl
    · rw [hev]; rfl
  · exact sessionCleanup_lookup_self r addr

/-- C5 witness: one heartbeat then a transport error — the record is
    removed and the channel released. -/
theorem handle_slave_disconnect_removes_record_witness :
    runSession "a" ([(("HEARTBEAT" : String), (1 : Int))].map toEvent ++
        RecvEvent.transportError :: []) [] =
      some ⟨sessionCleanup [("a", 1)] "a", true, true⟩ ∧
    Registry.lookup (sessionCleanup [("a", 1)] "a") "a" = none :=
  handle_slave_disconnect_removes_record "a" [("HEARTBEAT", 1)] [] [("a", 1)]
    (by decide) RecvEvent.transportError (Or.inl rfl) []

/-- C6: sweeping an already-swept registry again under the same clock with
    no new records is a no-op: nothing further is removed and no event is
    emitted, so an eviction happens exactly once. -/
theorem monitor_slaves_sweep_idempotent (now : Int) (reg : Registry) :
    sweep now (sweep now reg).1 = ((sweep now reg).1, ([] : List Addr)) := by
  have hfresh : ∀ e ∈ (sweep now reg).1, ¬ (now - e.2 > livenessDeadline) := by
    intro e he hstale
    rw [sweep, sweepLoop_eq] at he
    have hm := (mem_eraseAll _ _ _).mp he
    refine hm.2 (List.mem_map.mpr ⟨e, ?_, rfl⟩)
    rw [staleEntries, List.mem_filter]
    exact ⟨hm.1, decide_eq_true hstale⟩
  rw [sweep]
  exact sweepLoop_no_stale now (sweep now reg).1 (sweep now reg).1 hfresh

/-- C7: the slave's liveness message is the literal `HEARTBEAT` with no
    payload, and its resource message is `RESOURCE`, one space, and a
    payload of the form `CPU: <value>%, Memory: <value>%` (the sampled
    percentages abstracted as their rendered decimal strings); the
    controller's splitter recovers exactly that payload. -/
theorem slave_wire_format :
    heartbeatMessage = "HEARTBEAT" ∧
    pyStartsWith heartbeatMessage "HEARTBEAT" = true ∧
    (∀ cpu mem : String,
      resourceMessage cpu mem =
        "RESOURCE" ++ " " ++ ("CPU: " ++ cpu ++ "%, Memory: " ++ mem ++ "%") ∧
      splitPayload (resourceMessage cpu mem) = some (resourceData cpu mem) ∧
      pyStartsWith (resourceMessage cpu mem) "RESOURCE" = true) :=
  ⟨rfl, rfl, fun cpu mem =>
    ⟨rfl, splitPayload_resource (resourceData cpu mem),
     pyStartsWith_resource_self (resourceData cpu mem)⟩⟩

/-- C8 counterexample: a `ConnectionResetError` from `sendall` — the
    spec's transport-error taxonomy includes a reset — is not caught by
    `except (ssl.SSLError, BrokenPipeError)`, so the sender does raise out
    of its loop, falsifying the claim that on a send failure the sender
    never raises out. -/
theorem slave_sender_reset_raises_out :
    caughtBySender SendOutcome.connectionReset = false ∧
    runSenderLoop [SendOutcome.connectionReset] = SenderResult.raised 0 ∧
    (runAgent [SendOutcome.connectionReset] [SendOutcome.ok]).hb = SenderResult.raised 0 :=
  ⟨rfl, rfl, rfl⟩

/-- C8 (amended): when a send attempt fails after a prefix of successful
    sends, the affected sender's loop ends right there — by a clean
    `break` when the failure is one of the two caught types (`SSLError`,
    `BrokenPipeError`), or by the exception raising out of the sender when
    it is an uncaught `ConnectionResetError`.  On either path there is no
    retry and no reconnect (events after the failure are irrelevant), and
    the other sender's result is exactly that determined by its own
    outcomes alone. -/
theorem slave_sender_failure_is_local (pre post : List SendOutcome) (f : SendOutcome)
    (resOut : List SendOutcome) (hpre : ∀ o ∈ pre, o = SendOutcome.ok)
    (hf : f ≠ SendOutcome.ok) :
    (runAgent (pre ++ f :: post) resOut).hb =
      (if caughtBySender f then SenderResult.stopped pre.length
       else SenderResult.raised pre.length) ∧
    (∀ post2, runAgent (pre ++ f :: post2) resOut = runAgent (pre ++ f :: post) resOut) ∧
    (runAgent (pre ++ f :: post) resOut).res = runSenderLoop resOut := by
  have h1 := runSenderLoop_ok_to_fail hf pre post hpre
  refine ⟨by simp [runAgent, h1], ?_, rfl⟩
  intro post2
  have h2 := runSenderLoop_ok_to_fail hf pre post2 hpre
  simp [runAgent, h1, h2]

/-- C8 witness: one successful heartbeat send then a broken pipe stops
    that loop cleanly with one send done and the resource sender
    unaffected; a lone connection reset ends its loop by raising. -/
theorem slave_sender_failure_is_local_witness :
    (runAgent ([SendOutcome.ok] ++ SendOutcome.brokenPipe :: []) [SendOutcome.ok]).hb =
      (if caughtBySender SendOutcome.brokenPipe then
        SenderResult.stopped [SendOutcome.ok].length
       else SenderResult.raised [SendOutcome.ok].length) ∧
    (runAgent ([SendOutcome.ok] ++ SendOutcome.brokenPipe :: []) [SendOutcome.ok]).res =
      runSenderLoop [SendOutcome.ok] ∧
    (runAgent ([] ++ SendOutcome.connectionReset :: []) []).hb =
      (if caughtBySender SendOutcome.connectionReset then
        SenderResult.stopped ([] : List SendOutcome).length
       else SenderResult.raised ([] : List SendOutcome).length) :=
  ⟨(slave_sender_failure_is_local [SendOutcome.ok] [] SendOutcome.brokenPipe
      [SendOutcome.ok] (by decide) (by decide)).1,
   (slave_sender_failure_is_local [SendOutcome.ok] [] SendOutcome.brokenPipe
      [SendOutcome.ok] (by decide) (by decide)).2.2,
   (slave_sender_failure_is_local [] [] SendOutcome.connectionReset
      [] (by decide) (by decide)).1⟩

/-- C9: a message of exactly `RESOURCE` (no space, no payload) makes the
    payload extraction index past the end of the one-element split, an
    exception the handler's except clause does not catch: the session dies
    with the cleanup block skipped, the socket closed by the `with` block,
    and the registry left exactly as it was — the agent's record, if
    present, is not removed on this path. -/
theorem handle_slave_resource_without_payload_crashes (addr : Addr) (now : Int)
    (reg : Registry) (tail : List RecvEvent) :
    splitPayload "RESOURCE" = none ∧
    handleMessage addr now reg "RESOURCE" = StepResult.crash reg ∧
    runSession addr (RecvEvent.data "RESOURCE" now :: tail) reg =
      some ⟨reg, true, false⟩ :=
  ⟨rfl, rfl, rfl⟩

/-- C10: a non-empty message matching neither tag falls through both
    branches of `handle_slave`: the registry is untouched, nothing is
    raised, and the loop goes on to the next receive. -/
theorem handle_slave_unknown_tag_ignored (addr : Addr) (now : Int) (reg : Registry)
    (data : String) (tail : List RecvEvent)
    (hne : data ≠ "") (hh : pyStartsWith data "HEARTBEAT" = false)
    (hr : pyStartsWith data "RESOURCE" = false) :
    handleMessage addr now reg data = StepResult.keepReading reg ∧
    runSession addr (RecvEvent.data data now :: tail) reg = runSession addr tail reg := by
  have h1 := handleMessage_other addr now reg hne hh hr
  exact ⟨h1, by simp only [runSession, h1]⟩

/-- C10 witness: the message `HELLO` is ignored and the loop continues. -/
theorem handle_slave_unknown_tag_ignored_witness :
    handleMessage "a" 1 [("a", 0)] "HELLO" = StepResult.keepReading [("a", 0)] ∧
    runSession "a" (RecvEvent.data "HELLO" 1 :: []) [("a", 0)] =
      runSession "a" [] [("a", 0)] :=
  handle_slave_unknown_tag_ignored "a" 1 [("a", 0)] "HELLO" []
    (by decide) (by decide) (by decide)
